import Mathlib

/-!
Shallow embedding of the register-access layer of `power-gzip/inc_nx/nxu.h`
and of `cudautils/cudaCheck.h`, with proofs of the specified properties.

Machine integers are modelled as `Nat` with explicit `% 2^32` / `% 2^64`
truncation where the C code performs 32- or 64-bit unsigned arithmetic.
The host byte order is an explicit parameter (`Endian`), since the header
is written to run on both little- and big-endian POWER configurations.
-/

/-- Host byte order.  P9 may run either little or big endian. -/
inductive Endian where
  | little
  | big
deriving DecidableEq

/-- Byte `i` (little-endian position) of a natural number. -/
def byte (x i : Nat) : Nat := x / 2 ^ (8 * i) % 256

/-- 32-bit byte swap, the semantics of `htobe32`/`be32toh` on a
little-endian host (glibc `<endian.h>`). -/
def bswap32 (x : Nat) : Nat :=
  byte x 0 * 2 ^ 24 + byte x 1 * 2 ^ 16 + byte x 2 * 2 ^ 8 + byte x 3

/-- 64-bit byte swap, the semantics of `htobe64`/`be64toh` on a
little-endian host. -/
def bswap64 (x : Nat) : Nat :=
  byte x 0 * 2 ^ 56 + byte x 1 * 2 ^ 48 + byte x 2 * 2 ^ 40 + byte x 3 * 2 ^ 32 +
  byte x 4 * 2 ^ 24 + byte x 5 * 2 ^ 16 + byte x 6 * 2 ^ 8 + byte x 7

/-- `htobe32`: identity (as a `uint32_t` conversion) on a big-endian host,
byte swap on a little-endian host. -/
def htobe32 (e : Endian) (x : Nat) : Nat :=
  match e with
  | .big => x % 2 ^ 32
  | .little => bswap32 x

/-- `be32toh` performs the same transformation as `htobe32`. -/
def be32toh (e : Endian) (x : Nat) : Nat := htobe32 e x

/-- `htobe64`. -/
def htobe64 (e : Endian) (x : Nat) : Nat :=
  match e with
  | .big => x % 2 ^ 64
  | .little => bswap64 x

/-- `be64toh`. -/
def be64toh (e : Endian) (x : Nat) : Nat := htobe64 e x

/-- `#define size_mask(x) ((1U<<(x))-1)` in `uint32_t` arithmetic
(shift and subtraction truncated modulo `2^32`). -/
def size_mask (x : Nat) : Nat := ((1 <<< x) % 2 ^ 32 + (2 ^ 32 - 1)) % 2 ^ 32

theorem byte_lt (x i : Nat) : byte x i < 256 := Nat.mod_lt _ (by norm_num)

theorem bswap32_lt (x : Nat) : bswap32 x < 2 ^ 32 := by
  have h0 := byte_lt x 0
  have h1 := byte_lt x 1
  have h2 := byte_lt x 2
  have h3 := byte_lt x 3
  unfold bswap32
  omega

theorem bswap64_lt (x : Nat) : bswap64 x < 2 ^ 64 := by
  have h0 := byte_lt x 0
  have h1 := byte_lt x 1
  have h2 := byte_lt x 2
  have h3 := byte_lt x 3
  have h4 := byte_lt x 4
  have h5 := byte_lt x 5
  have h6 := byte_lt x 6
  have h7 := byte_lt x 7
  unfold bswap64
  omega

theorem bswap32_of_bytes (b0 b1 b2 b3 : Nat) (h0 : b0 < 256) (h1 : b1 < 256)
    (h2 : b2 < 256) (h3 : b3 < 256) :
    bswap32 (b0 * 2 ^ 24 + b1 * 2 ^ 16 + b2 * 2 ^ 8 + b3) =
      b3 * 2 ^ 24 + b2 * 2 ^ 16 + b1 * 2 ^ 8 + b0 := by
  unfold bswap32 byte
  norm_num
  omega

set_option maxHeartbeats 2000000 in
theorem bswap64_of_bytes (b0 b1 b2 b3 b4 b5 b6 b7 : Nat) (h0 : b0 < 256)
    (h1 : b1 < 256) (h2 : b2 < 256) (h3 : b3 < 256) (h4 : b4 < 256)
    (h5 : b5 < 256) (h6 : b6 < 256) (h7 : b7 < 256) :
    bswap64 (b0 * 2 ^ 56 + b1 * 2 ^ 48 + b2 * 2 ^ 40 + b3 * 2 ^ 32 +
             b4 * 2 ^ 24 + b5 * 2 ^ 16 + b6 * 2 ^ 8 + b7) =
      b7 * 2 ^ 56 + b6 * 2 ^ 48 + b5 * 2 ^ 40 + b4 * 2 ^ 32 +
      b3 * 2 ^ 24 + b2 * 2 ^ 16 + b1 * 2 ^ 8 + b0 := by
  unfold bswap64 byte
  norm_num
  omega

theorem bswap32_bswap32 (x : Nat) (hx : x < 2 ^ 32) : bswap32 (bswap32 x) = x := by
  have hb : bswap32 x = byte x 0 * 2 ^ 24 + byte x 1 * 2 ^ 16 + byte x 2 * 2 ^ 8 + byte x 3 := rfl
  rw [hb, bswap32_of_bytes _ _ _ _ (byte_lt x 0) (byte_lt x 1) (byte_lt x 2) (byte_lt x 3)]
  unfold byte
  norm_num
  omega

theorem bswap64_bswap64 (x : Nat) (hx : x < 2 ^ 64) : bswap64 (bswap64 x) = x := by
  have hb : bswap64 x = byte x 0 * 2 ^ 56 + byte x 1 * 2 ^ 48 + byte x 2 * 2 ^ 40 +
      byte x 3 * 2 ^ 32 + byte x 4 * 2 ^ 24 + byte x 5 * 2 ^ 16 + byte x 6 * 2 ^ 8 +
      byte x 7 := rfl
  rw [hb, bswap64_of_bytes _ _ _ _ _ _ _ _ (byte_lt x 0) (byte_lt x 1) (byte_lt x 2)
    (byte_lt x 3) (byte_lt x 4) (byte_lt x 5) (byte_lt x 6) (byte_lt x 7)]
  unfold byte
  norm_num
  omega

theorem htobe32_lt (e : Endian) (x : Nat) : htobe32 e x < 2 ^ 32 := by
  cases e with
  | big => exact Nat.mod_lt _ (by norm_num)
  | little => exact bswap32_lt x

theorem be32toh_htobe32 (e : Endian) (x : Nat) (hx : x < 2 ^ 32) :
    be32toh e (htobe32 e x) = x := by
  cases e with
  | big => simp only [be32toh, htobe32]; omega
  | little => exact bswap32_bswap32 x hx

theorem be64toh_htobe64 (e : Endian) (x : Nat) (hx : x < 2 ^ 64) :
    be64toh e (htobe64 e x) = x := by
  cases e with
  | big => simp only [be64toh, htobe64]; omega
  | little => exact bswap64_bswap64 x hx

theorem size_mask_eq (x : Nat) (hx : x ≤ 32) : size_mask x = 2 ^ x - 1 := by
  unfold size_mask
  rw [Nat.shiftLeft_eq, Nat.one_mul]
  rcases Nat.lt_or_ge x 32 with h | h
  · have hlt : 2 ^ x < 2 ^ 32 := Nat.pow_lt_pow_right (by norm_num) h
    have hge : 1 ≤ 2 ^ x := Nat.one_le_two_pow
    omega
  · have hx32 : x = 32 := le_antisymm hx h
    subst hx32
    norm_num

/-!  Register field accessors (`getnn`/`putnn` and friends).

The macros first convert the stored 32-bit register to big-endian order
(`be32toh`), manipulate the field there, and convert back (`htobe32`).
The `_w` functions below are the manipulations on the converted word;
the full accessors compose them with the endian conversion exactly as the
macros do.  `o` is the `*_offset` constant: the rightmost bit position of
the field in the hardware's msb-0 numbering, so the field's low bit sits
at little-endian position `31 - o`. -/

/-- `getnn`: `(be32toh(ST.REG) >> (31-offset)) & mask` on the converted word. -/
def getnn_w (word o w : Nat) : Nat := (word >>> (31 - o)) &&& size_mask w

/-- `unget32`: `get32(ST,REG) & ~(mask << (31-offset))`, all in `uint32_t`. -/
def unget32_w (word o w : Nat) : Nat :=
  word &&& ((2 ^ 32 - 1) ^^^ (size_mask w <<< (31 - o)) % 2 ^ 32)

/-- `putnn` body: `unget32(ST,REG) | ((X & mask) << (31-offset))` in `uint32_t`. -/
def putnn_w (word o w v : Nat) : Nat :=
  unget32_w word o w ||| ((v &&& size_mask w) <<< (31 - o)) % 2 ^ 32

/-- `get32(ST, REG)`. -/
def get32 (e : Endian) (st : Nat) : Nat := be32toh e st

/-- `put32(ST, REG, X)`: the value stored into the register. -/
def put32 (e : Endian) (x : Nat) : Nat := htobe32 e x

/-- `get64(ST, REG)`. -/
def get64 (e : Endian) (st : Nat) : Nat := be64toh e st

/-- `put64(ST, REG, X)`: the value stored into the register. -/
def put64 (e : Endian) (x : Nat) : Nat := htobe64 e x

/-- `getnn(ST, REG)` on a stored register value. -/
def getnn (e : Endian) (st o w : Nat) : Nat := getnn_w (be32toh e st) o w

/-- `unget32(ST, REG)` on a stored register value. -/
def unget32 (e : Endian) (st o w : Nat) : Nat := unget32_w (be32toh e st) o w

/-- `putnn(ST, REG, X)`: the value stored back into the register. -/
def putnn (e : Endian) (st o w v : Nat) : Nat :=
  htobe32 e (putnn_w (be32toh e st) o w v)

theorem unget32_w_lt (word o w : Nat) (h : word < 2 ^ 32) :
    unget32_w word o w < 2 ^ 32 :=
  Nat.lt_of_le_of_lt Nat.and_le_left h

theorem putnn_w_lt (word o w v : Nat) (h : word < 2 ^ 32) :
    putnn_w word o w v < 2 ^ 32 :=
  Nat.or_lt_two_pow (unget32_w_lt word o w h) (Nat.mod_lt _ (by norm_num))

theorem getnn_w_putnn_w (word o w v : Nat) (ho : o ≤ 31) (hw1 : 1 ≤ w)
    (hw : w ≤ o + 1) (hword : word < 2 ^ 32) :
    getnn_w (putnn_w word o w v) o w = v % 2 ^ w := by
  have hmask : size_mask w = 2 ^ w - 1 := size_mask_eq w (by omega)
  apply Nat.eq_of_testBit_eq
  intro i
  simp only [getnn_w, putnn_w, unget32_w, hmask, Nat.testBit_and, Nat.testBit_or,
    Nat.testBit_xor, Nat.testBit_shiftRight, Nat.testBit_shiftLeft,
    Nat.testBit_mod_two_pow, Nat.testBit_two_pow_sub_one]
  by_cases hi : i < w
  · have h1 : 31 - o ≤ 31 - o + i := Nat.le_add_right _ _
    have h2 : 31 - o + i - (31 - o) = i := by omega
    have h3 : 31 - o + i < 32 := by omega
    simp [hi, h1, h2, h3]
  · simp [hi]

theorem be32toh_lt (e : Endian) (x : Nat) : be32toh e x < 2 ^ 32 := htobe32_lt e x

/-- The field produced by `putnn_w` holds `v mod 2^w`: bit `k` of the field
(little-endian position `31 - o + k`) equals bit `k` of `v mod 2^w`. -/
def putnn_fieldOk (word o w v : Nat) : Prop :=
  ∀ k, k < w → (putnn_w word o w v).testBit (31 - o + k) = (v % 2 ^ w).testBit k

/-- `putnn_w` leaves every bit outside the field span `[31-o, 31-o+w)`
unchanged. -/
def putnn_frameOk (word o w v : Nat) : Prop :=
  ∀ i, i < 32 → (i < 31 - o ∨ 31 - o + w ≤ i) →
    (putnn_w word o w v).testBit i = word.testBit i

/-- `unget32_w` zeroes exactly the `w` field bits: the field span reads as
zero and every bit outside it is unchanged. -/
def unget32_zeroOk (word o w : Nat) : Prop :=
  (∀ k, k < w → (unget32_w word o w).testBit (31 - o + k) = false) ∧
  (∀ i, i < 32 → (i < 31 - o ∨ 31 - o + w ≤ i) →
    (unget32_w word o w).testBit i = word.testBit i)

theorem testBit_mod_u32 (x i : Nat) :
    (x % 4294967296).testBit i = (decide (i < 32) && x.testBit i) := by
  have h := Nat.testBit_mod_two_pow x 32 i
  norm_num at h
  exact h

theorem testBit_u32_ones (i : Nat) : Nat.testBit 4294967295 i = decide (i < 32) := by
  have h := Nat.testBit_two_pow_sub_one 32 i
  norm_num at h
  exact h

theorem unget32_w_zeroOk (word o w : Nat) (ho : o ≤ 31) (hw1 : 1 ≤ w)
    (hw : w ≤ o + 1) (hword : word < 2 ^ 32) : unget32_zeroOk word o w := by
  have hmask : size_mask w = 2 ^ w - 1 := size_mask_eq w (by omega)
  constructor
  · intro k hk
    have h1 : 31 - o ≤ 31 - o + k := Nat.le_add_right _ _
    have h2 : 31 - o + k - (31 - o) = k := by omega
    have h3 : 31 - o + k < 32 := by omega
    simp [unget32_w, hmask, testBit_mod_u32, testBit_u32_ones, Nat.testBit_shiftLeft,
      h1, h2, h3, hk]
  · intro i hi houts
    have h3 : ((2 ^ w - 1) <<< (31 - o)).testBit i = false := by
      rcases houts with h | h
      · simp [Nat.testBit_shiftLeft, Nat.not_le.mpr h]
      · have h4 : ¬ (i - (31 - o) < w) := by omega
        simp [Nat.testBit_shiftLeft, h4]
    simp [unget32_w, hmask, testBit_mod_u32, testBit_u32_ones, hi, h3]

theorem putnn_w_fieldOk (word o w v : Nat) (ho : o ≤ 31) (hw1 : 1 ≤ w)
    (hw : w ≤ o + 1) (hword : word < 2 ^ 32) : putnn_fieldOk word o w v := by
  have hmask : size_mask w = 2 ^ w - 1 := size_mask_eq w (by omega)
  intro k hk
  have hz := (unget32_w_zeroOk word o w ho hw1 hw hword).1 k hk
  have h1 : 31 - o ≤ 31 - o + k := Nat.le_add_right _ _
  have h2 : 31 - o + k - (31 - o) = k := by omega
  have h3 : 31 - o + k < 32 := by omega
  simp only [putnn_w, Nat.testBit_or, hz, Bool.false_or]
  simp [hmask, testBit_mod_u32, Nat.testBit_shiftLeft, h1, h2, h3, hk]

theorem putnn_w_frameOk (word o w v : Nat) (ho : o ≤ 31) (hw1 : 1 ≤ w)
    (hw : w ≤ o + 1) (hword : word < 2 ^ 32) : putnn_frameOk word o w v := by
  have hmask : size_mask w = 2 ^ w - 1 := size_mask_eq w (by omega)
  intro i hi houts
  have hu := (unget32_w_zeroOk word o w ho hw1 hw hword).2 i hi houts
  have hb : (((v &&& size_mask w) <<< (31 - o)) % 2 ^ 32).testBit i = false := by
    rcases houts with h | h
    · simp [testBit_mod_u32, Nat.testBit_shiftLeft, Nat.not_le.mpr h]
    · have h4 : ¬ (i - (31 - o) < w) := by omega
      simp [hmask, testBit_mod_u32, Nat.testBit_shiftLeft, h4]
  simp only [putnn_w, Nat.testBit_or, hb, Bool.or_false, hu]

/-- C1 (amended).  For every host byte order, every field width `w ∈ [1,32]`
and offset `o ≤ 31` with `w ≤ o + 1` (so the field `[31-o, 31-o+w)` fits in
the 32-bit word), every 32-bit stored word and every value `v`: packing `v`
with the `putnn` mechanism at `(o, w, size_mask w)` and then unpacking the
same field with the `getnn` mechanism yields `v mod 2^w` — the big-endian
store and load cancel. -/
theorem C1_getnn_putnn_roundtrip (e : Endian) (st o w v : Nat) (ho : o ≤ 31)
    (hw1 : 1 ≤ w) (hw : w ≤ o + 1) (hst : st < 2 ^ 32) :
    getnn e (putnn e st o w v) o w = v % 2 ^ w := by
  unfold getnn putnn
  rw [be32toh_htobe32 e _ (putnn_w_lt _ o w v (be32toh_lt e st))]
  exact getnn_w_putnn_w (be32toh e st) o w v ho hw1 hw (be32toh_lt e st)

/-- Witness for C1 at the `csb_cc` field layout (offset 23, width 8) on a
little-endian host. -/
theorem C1_getnn_putnn_roundtrip_witness :
    getnn Endian.little (putnn Endian.little 305419896 23 8 171) 23 8 = 171 % 2 ^ 8 :=
  C1_getnn_putnn_roundtrip Endian.little 305419896 23 8 171 (by decide) (by decide)
    (by decide) (by decide)

/-- Counterexample to C1 as stated: at offset `o = 0`, width `w = 2` the
stated side condition `o + w ≤ 32` holds, yet pack-then-unpack of `v = 3`
does not return `3 mod 4` (the field would overhang the most significant
end of the word and the `uint32_t` shift truncates it). -/
theorem C1_counterexample :
    (0 + 2 ≤ 32 ∧ (0 : Nat) < 2 ^ 32) ∧
      getnn Endian.little (putnn Endian.little 0 0 2 3) 0 2 ≠ 3 % 2 ^ 2 := by
  decide

/-- C2 (amended).  For every field width `w ∈ [1,32]` and offset `o ≤ 31`
with `w ≤ o + 1`, and every 32-bit word and value `v`: the `putnn` mechanism
zeroes exactly the `w` field bits before OR-ing in the new value (the
`unget32` step), the packed field holds `v mod 2^w`, and every bit of the
word outside the field span `[31-o, 31-o+w)` is unchanged. -/
theorem C2_putnn_field_frame (word o w v : Nat) (ho : o ≤ 31) (hw1 : 1 ≤ w)
    (hw : w ≤ o + 1) (hword : word < 2 ^ 32) :
    putnn_fieldOk word o w v ∧ putnn_frameOk word o w v ∧ unget32_zeroOk word o w :=
  ⟨putnn_w_fieldOk word o w v ho hw1 hw hword,
   putnn_w_frameOk word o w v ho hw1 hw hword,
   unget32_w_zeroOk word o w ho hw1 hw hword⟩

/-- Witness for C2 at the `in_histlen` field layout (offset 11, width 12). -/
theorem C2_putnn_field_frame_witness :
    putnn_fieldOk 4022250974 11 12 2989 ∧ putnn_frameOk 4022250974 11 12 2989 ∧
      unget32_zeroOk 4022250974 11 12 :=
  C2_putnn_field_frame 4022250974 11 12 2989 (by decide) (by decide) (by decide)
    (by decide)

/-- Counterexample to C2 as stated: at offset `o = 0`, width `w = 2`
(`o + w ≤ 32` holds) packing `v = 3` into the zero word does not place
`3 mod 4` in the field span: the bit of weight `2^32` is lost to the
`uint32_t` truncation. -/
theorem C2_counterexample : 0 + 2 ≤ 32 ∧ ¬ putnn_fieldOk 0 0 2 3 := by
  unfold putnn_fieldOk
  decide

/-!  Memory-level view for C3.

A `uint32_t`/`uint64_t` register field occupies 4 resp. 8 bytes of memory;
on a host with byte order `e` the memory image of a stored value is its
host-order byte sequence.  The accessors are "big-endian regardless of
host order" iff the memory image written by the put macros is the
big-endian byte representation of the value, and the get macros read the
big-endian value of the memory image, for both choices of `e`. -/

/-- Memory image (lowest address first) of a stored `uint32_t`. -/
def hostBytes32 (e : Endian) (st : Nat) : List Nat :=
  match e with
  | .little => [byte st 0, byte st 1, byte st 2, byte st 3]
  | .big => [byte st 3, byte st 2, byte st 1, byte st 0]

/-- Memory image (lowest address first) of a stored `uint64_t`. -/
def hostBytes64 (e : Endian) (st : Nat) : List Nat :=
  match e with
  | .little => [byte st 0, byte st 1, byte st 2, byte st 3,
                byte st 4, byte st 5, byte st 6, byte st 7]
  | .big => [byte st 7, byte st 6, byte st 5, byte st 4,
             byte st 3, byte st 2, byte st 1, byte st 0]

/-- Big-endian byte representation of a 32-bit value (most significant
byte first). -/
def beBytes32 (v : Nat) : List Nat := [byte v 3, byte v 2, byte v 1, byte v 0]

/-- Big-endian byte representation of a 64-bit value. -/
def beBytes64 (v : Nat) : List Nat :=
  [byte v 7, byte v 6, byte v 5, byte v 4, byte v 3, byte v 2, byte v 1, byte v 0]

/-- Numeric value of a byte list read in big-endian order. -/
def beVal (bs : List Nat) : Nat := bs.foldl (fun a b => a * 256 + b) 0

theorem bytes_of_sum32 (b0 b1 b2 b3 : Nat) (h0 : b0 < 256) (h1 : b1 < 256)
    (h2 : b2 < 256) (h3 : b3 < 256) :
    byte (b3 * 2 ^ 24 + b2 * 2 ^ 16 + b1 * 2 ^ 8 + b0) 0 = b0 ∧
    byte (b3 * 2 ^ 24 + b2 * 2 ^ 16 + b1 * 2 ^ 8 + b0) 1 = b1 ∧
    byte (b3 * 2 ^ 24 + b2 * 2 ^ 16 + b1 * 2 ^ 8 + b0) 2 = b2 ∧
    byte (b3 * 2 ^ 24 + b2 * 2 ^ 16 + b1 * 2 ^ 8 + b0) 3 = b3 := by
  unfold byte
  norm_num
  omega

set_option maxHeartbeats 2000000 in
theorem bytes_of_sum64 (b0 b1 b2 b3 b4 b5 b6 b7 : Nat) (h0 : b0 < 256)
    (h1 : b1 < 256) (h2 : b2 < 256) (h3 : b3 < 256) (h4 : b4 < 256)
    (h5 : b5 < 256) (h6 : b6 < 256) (h7 : b7 < 256) :
    byte (b7 * 2 ^ 56 + b6 * 2 ^ 48 + b5 * 2 ^ 40 + b4 * 2 ^ 32 +
          b3 * 2 ^ 24 + b2 * 2 ^ 16 + b1 * 2 ^ 8 + b0) 0 = b0 ∧
    byte (b7 * 2 ^ 56 + b6 * 2 ^ 48 + b5 * 2 ^ 40 + b4 * 2 ^ 32 +
          b3 * 2 ^ 24 + b2 * 2 ^ 16 + b1 * 2 ^ 8 + b0) 1 = b1 ∧
    byte (b7 * 2 ^ 56 + b6 * 2 ^ 48 + b5 * 2 ^ 40 + b4 * 2 ^ 32 +
          b3 * 2 ^ 24 + b2 * 2 ^ 16 + b1 * 2 ^ 8 + b0) 2 = b2 ∧
    byte (b7 * 2 ^ 56 + b6 * 2 ^ 48 + b5 * 2 ^ 40 + b4 * 2 ^ 32 +
          b3 * 2 ^ 24 + b2 * 2 ^ 16 + b1 * 2 ^ 8 + b0) 3 = b3 ∧
    byte (b7 * 2 ^ 56 + b6 * 2 ^ 48 + b5 * 2 ^ 40 + b4 * 2 ^ 32 +
          b3 * 2 ^ 24 + b2 * 2 ^ 16 + b1 * 2 ^ 8 + b0) 4 = b4 ∧
    byte (b7 * 2 ^ 56 + b6 * 2 ^ 48 + b5 * 2 ^ 40 + b4 * 2 ^ 32 +
          b3 * 2 ^ 24 + b2 * 2 ^ 16 + b1 * 2 ^ 8 + b0) 5 = b5 ∧
    byte (b7 * 2 ^ 56 + b6 * 2 ^ 48 + b5 * 2 ^ 40 + b4 * 2 ^ 32 +
          b3 * 2 ^ 24 + b2 * 2 ^ 16 + b1 * 2 ^ 8 + b0) 6 = b6 ∧
    byte (b7 * 2 ^ 56 + b6 * 2 ^ 48 + b5 * 2 ^ 40 + b4 * 2 ^ 32 +
          b3 * 2 ^ 24 + b2 * 2 ^ 16 + b1 * 2 ^ 8 + b0) 7 = b7 := by
  unfold byte
  norm_num
  omega

theorem hostBytes32_htobe32 (e : Endian) (v : Nat) (hv : v < 2 ^ 32) :
    hostBytes32 e (htobe32 e v) = beBytes32 v := by
  cases e with
  | big =>
    have hmod : v % 2 ^ 32 = v := Nat.mod_eq_of_lt hv
    simp only [hostBytes32, htobe32, beBytes32, hmod]
  | little =>
    have hb : bswap32 v = byte v 0 * 2 ^ 24 + byte v 1 * 2 ^ 16 + byte v 2 * 2 ^ 8 +
        byte v 3 := rfl
    obtain ⟨e0, e1, e2, e3⟩ := bytes_of_sum32 (byte v 3) (byte v 2) (byte v 1) (byte v 0)
      (byte_lt v 3) (byte_lt v 2) (byte_lt v 1) (byte_lt v 0)
    simp only [hostBytes32, htobe32, beBytes32, hb, e0, e1, e2, e3]

theorem hostBytes64_htobe64 (e : Endian) (v : Nat) (hv : v < 2 ^ 64) :
    hostBytes64 e (htobe64 e v) = beBytes64 v := by
  cases e with
  | big =>
    have hmod : v % 2 ^ 64 = v := Nat.mod_eq_of_lt hv
    simp only [hostBytes64, htobe64, beBytes64, hmod]
  | little =>
    have hb : bswap64 v = byte v 0 * 2 ^ 56 + byte v 1 * 2 ^ 48 + byte v 2 * 2 ^ 40 +
        byte v 3 * 2 ^ 32 + byte v 4 * 2 ^ 24 + byte v 5 * 2 ^ 16 + byte v 6 * 2 ^ 8 +
        byte v 7 := rfl
    obtain ⟨e0, e1, e2, e3, e4, e5, e6, e7⟩ := bytes_of_sum64 (byte v 7) (byte v 6)
      (byte v 5) (byte v 4) (byte v 3) (byte v 2) (byte v 1) (byte v 0)
      (byte_lt v 7) (byte_lt v 6) (byte_lt v 5) (byte_lt v 4) (byte_lt v 3)
      (byte_lt v 2) (byte_lt v 1) (byte_lt v 0)
    simp only [hostBytes64, htobe64, beBytes64, hb, e0, e1, e2, e3, e4, e5, e6, e7]

theorem beVal_hostBytes32 (e : Endian) (st : Nat) (h : st < 2 ^ 32) :
    beVal (hostBytes32 e st) = be32toh e st := by
  cases e with
  | big =>
    simp only [beVal, hostBytes32, be32toh, htobe32, List.foldl, Nat.mod_eq_of_lt h]
    unfold byte
    norm_num
    omega
  | little =>
    simp only [beVal, hostBytes32, be32toh, htobe32, List.foldl, bswap32]
    ring

theorem beVal_hostBytes64 (e : Endian) (st : Nat) (h : st < 2 ^ 64) :
    beVal (hostBytes64 e st) = be64toh e st := by
  cases e with
  | big =>
    simp only [beVal, hostBytes64, be64toh, htobe64, List.foldl, Nat.mod_eq_of_lt h]
    unfold byte
    norm_num
    omega
  | little =>
    simp only [beVal, hostBytes64, be64toh, htobe64, List.foldl, bswap64]
    ring

/-- C3.  For every host byte order `e`: `put32`/`put64` leave the register's
memory image equal to the big-endian byte representation of the value, and
`get32`/`get64` read it back; every modelled accessor — including the
sub-word `getnn`/`putnn` forms — is a function of the big-endian byte view
of memory alone: the get macros return the big-endian value of the memory
image and `putnn` rewrites the image by the big-endian field update
`putnn_w`.  No accessor stores or loads in native host order. -/
theorem C3_accessors_big_endian (e : Endian) (v32 v64 st32 st64 o w : Nat)
    (h32 : v32 < 2 ^ 32) (h64 : v64 < 2 ^ 64)
    (hs32 : st32 < 2 ^ 32) (hs64 : st64 < 2 ^ 64) :
    hostBytes32 e (put32 e v32) = beBytes32 v32 ∧
    get32 e (put32 e v32) = v32 ∧
    hostBytes64 e (put64 e v64) = beBytes64 v64 ∧
    get64 e (put64 e v64) = v64 ∧
    get32 e st32 = beVal (hostBytes32 e st32) ∧
    get64 e st64 = beVal (hostBytes64 e st64) ∧
    getnn e st32 o w = getnn_w (beVal (hostBytes32 e st32)) o w ∧
    hostBytes32 e (putnn e st32 o w v32) =
      beBytes32 (putnn_w (beVal (hostBytes32 e st32)) o w v32) := by
  refine ⟨hostBytes32_htobe32 e v32 h32, be32toh_htobe32 e v32 h32,
    hostBytes64_htobe64 e v64 h64, be64toh_htobe64 e v64 h64,
    (beVal_hostBytes32 e st32 hs32).symm, (beVal_hostBytes64 e st64 hs64).symm, ?_, ?_⟩
  · rw [beVal_hostBytes32 e st32 hs32]
    rfl
  · rw [beVal_hostBytes32 e st32 hs32]
    exact hostBytes32_htobe32 e _ (putnn_w_lt _ o w v32 (be32toh_lt e st32))

/-- Witness for C3 on a little-endian host with concrete register values. -/
theorem C3_accessors_big_endian_witness :
    hostBytes32 Endian.little (put32 Endian.little 287454020) = beBytes32 287454020 ∧
    get32 Endian.little (put32 Endian.little 287454020) = 287454020 ∧
    hostBytes64 Endian.little (put64 Endian.little 1311768467463790320) =
      beBytes64 1311768467463790320 ∧
    get64 Endian.little (put64 Endian.little 1311768467463790320) = 1311768467463790320 ∧
    get32 Endian.little 3735928559 = beVal (hostBytes32 Endian.little 3735928559) ∧
    get64 Endian.little 81985529216486895 =
      beVal (hostBytes64 Endian.little 81985529216486895) ∧
    getnn Endian.little 3735928559 23 8 =
      getnn_w (beVal (hostBytes32 Endian.little 3735928559)) 23 8 ∧
    hostBytes32 Endian.little (putnn Endian.little 3735928559 23 8 287454020) =
      beBytes32 (putnn_w (beVal (hostBytes32 Endian.little 3735928559)) 23 8 287454020) :=
  C3_accessors_big_endian Endian.little 287454020 1311768467463790320 3735928559
    81985529216486895 23 8 (by decide) (by decide) (by decide) (by decide)

/-!  Completion extension bits (Section 6.6 Figure 6.7). -/

/-- `CSB_CE_PARTIAL`. -/
def CSB_CE_PARTIAL : Nat := 0x4

/-- `CSB_CE_TERMINATE`. -/
def CSB_CE_TERMINATE : Nat := 0x2

/-- `CSB_CE_TPBC_VALID`. -/
def CSB_CE_TPBC_VALID : Nat := 0x1

/-- `csb_ce_termination(X)`: `!!((X) & CSB_CE_TERMINATE)`. -/
def csb_ce_termination (X : Nat) : Bool := (X &&& CSB_CE_TERMINATE) != 0

/-- `csb_ce_check_completion(X)`: `!csb_ce_termination(X)`. -/
def csb_ce_check_completion (X : Nat) : Bool := ! csb_ce_termination X

/-- `csb_ce_partial_completion(X)`: `!!((X) & CSB_CE_PARTIAL)`. -/
def csb_ce_partial_completion (X : Nat) : Bool := (X &&& CSB_CE_PARTIAL) != 0

/-- `csb_ce_full_completion(X)`: `!csb_ce_partial_completion(X)`. -/
def csb_ce_full_completion (X : Nat) : Bool := ! csb_ce_partial_completion X

/-- `csb_ce_tpbc_valid(X)`: `!!((X) & CSB_CE_TPBC_VALID)`. -/
def csb_ce_tpbc_valid (X : Nat) : Bool := (X &&& CSB_CE_TPBC_VALID) != 0

/-- `csb_ce_cc64(X)` exactly as the macro parses in C.  The macro text is
`((X)&(CSB_CE_PARTIAL | CSB_CE_TERMINATE) == 0)`; since `==` binds tighter
than `&`, the comparison `(CSB_CE_PARTIAL | CSB_CE_TERMINATE) == 0` is
evaluated first (an `int`, here 0) and only then AND-ed with `X`. -/
def csb_ce_cc64 (X : Nat) : Bool :=
  (X &&& (if CSB_CE_PARTIAL ||| CSB_CE_TERMINATE = 0 then 1 else 0)) != 0

/-- The reading the macro's own comment ("Compression: when TPBC>SPBC then
CC=64") and the spec describe: both the partial and terminate flags clear. -/
def csb_ce_cc64_intended (X : Nat) : Bool :=
  (X &&& (CSB_CE_PARTIAL ||| CSB_CE_TERMINATE)) == 0

theorem and_two_pow_eq (x n : Nat) :
    x &&& 2 ^ n = if x.testBit n then 2 ^ n else 0 := by
  apply Nat.eq_of_testBit_eq
  intro i
  cases hx : x.testBit n with
  | true =>
    by_cases hi : n = i
    · subst hi
      simp [Nat.testBit_and, Nat.testBit_two_pow, hx]
    · simp [Nat.testBit_and, Nat.testBit_two_pow, hx, hi]
  | false =>
    by_cases hi : n = i
    · subst hi
      simp [Nat.testBit_and, Nat.testBit_two_pow, hx]
    · simp [Nat.testBit_and, Nat.testBit_two_pow, hx, hi]

theorem and_flag (x n : Nat) : ((x &&& 2 ^ n) != 0) = x.testBit n := by
  rw [and_two_pow_eq]
  have hne : (2 : Nat) ^ n ≠ 0 := pow_ne_zero n (by norm_num)
  cases h : x.testBit n <;> simp [h, hne]

/-- C4.  The completion-extension classifiers decode the three flags:
termination is bit 1 (value `0x2`); when termination is clear, partial
completion is bit 2 (value `0x4`) and full completion its negation; TPBC
validity is bit 0 (value `0x1`).  Consequently exactly one of
{terminated, not-terminated-and-partial, not-terminated-and-full} holds. -/
theorem C4_csb_ce_partition (X : Nat) :
    (csb_ce_termination X = X.testBit 1) ∧
    (csb_ce_termination X = false →
      csb_ce_partial_completion X = X.testBit 2 ∧
      csb_ce_full_completion X = (! X.testBit 2)) ∧
    (csb_ce_tpbc_valid X = X.testBit 0) ∧
    ((csb_ce_termination X).toNat +
      ((! csb_ce_termination X) && csb_ce_partial_completion X).toNat +
      ((! csb_ce_termination X) && csb_ce_full_completion X).toNat = 1) := by
  have h1 : csb_ce_termination X = X.testBit 1 := by
    have h := and_flag X 1
    norm_num at h
    simpa [csb_ce_termination, CSB_CE_TERMINATE] using h
  have h2 : csb_ce_partial_completion X = X.testBit 2 := by
    have h := and_flag X 2
    norm_num at h
    simpa [csb_ce_partial_completion, CSB_CE_PARTIAL] using h
  have h0 : csb_ce_tpbc_valid X = X.testBit 0 := by
    have h := and_flag X 0
    norm_num at h
    simpa [csb_ce_tpbc_valid, CSB_CE_TPBC_VALID] using h
  refine ⟨h1, fun _ => ⟨h2, ?_⟩, h0, ?_⟩
  · simp [csb_ce_full_completion, h2]
  · cases hb1 : X.testBit 1 <;> cases hb2 : X.testBit 2 <;>
      simp [csb_ce_full_completion, h1, h2, hb1, hb2]

/-- Witness for C4 at `X = 4` (terminated clear, partial set). -/
theorem C4_csb_ce_partition_witness :
    csb_ce_partial_completion 4 = Nat.testBit 4 2 ∧
      csb_ce_full_completion 4 = (! Nat.testBit 4 2) :=
  (C4_csb_ce_partition 4).2.1 (by decide)

/-- C5 (code bug).  As written, `csb_ce_cc64` is constantly false because
the C `==` binds tighter than `&`: for every `X` it computes
`X & ((0x4|0x2) == 0) = X & 0 = 0`.  In particular at `X = 0` — both the
partial and terminate flags clear, the completion state that CC=64 produces
— the macro yields false while the intended predicate yields true. -/
theorem C5_csb_ce_cc64_code_bug :
    (∀ X : Nat, csb_ce_cc64 X = false) ∧
    csb_ce_cc64 0 = false ∧ csb_ce_cc64_intended 0 = true := by
  refine ⟨fun X => ?_, by decide, by decide⟩
  simp [csb_ce_cc64, CSB_CE_PARTIAL, CSB_CE_TERMINATE]

/-!  Function codes, Table 6.2. -/

/-- `GZIP_FC_COMPRESS_FHT`. -/
def GZIP_FC_COMPRESS_FHT : Nat := 0x00

/-- `GZIP_FC_COMPRESS_DHT`. -/
def GZIP_FC_COMPRESS_DHT : Nat := 0x02

/-- `GZIP_FC_COMPRESS_FHT_COUNT`. -/
def GZIP_FC_COMPRESS_FHT_COUNT : Nat := 0x04

/-- `GZIP_FC_COMPRESS_DHT_COUNT`. -/
def GZIP_FC_COMPRESS_DHT_COUNT : Nat := 0x06

/-- `GZIP_FC_COMPRESS_RESUME_FHT`. -/
def GZIP_FC_COMPRESS_RESUME_FHT : Nat := 0x08

/-- `GZIP_FC_COMPRESS_RESUME_DHT`. -/
def GZIP_FC_COMPRESS_RESUME_DHT : Nat := 0x0a

/-- `GZIP_FC_COMPRESS_RESUME_FHT_COUNT`. -/
def GZIP_FC_COMPRESS_RESUME_FHT_COUNT : Nat := 0x0c

/-- `GZIP_FC_COMPRESS_RESUME_DHT_COUNT`. -/
def GZIP_FC_COMPRESS_RESUME_DHT_COUNT : Nat := 0x0e

/-- `GZIP_FC_DECOMPRESS`. -/
def GZIP_FC_DECOMPRESS : Nat := 0x10

/-- `GZIP_FC_DECOMPRESS_SINGLE_BLK_N_SUSPEND`. -/
def GZIP_FC_DECOMPRESS_SINGLE_BLK_N_SUSPEND : Nat := 0x12

/-- `GZIP_FC_DECOMPRESS_RESUME`. -/
def GZIP_FC_DECOMPRESS_RESUME : Nat := 0x14

/-- `GZIP_FC_DECOMPRESS_RESUME_SINGLE_BLK_N_SUSPEND`. -/
def GZIP_FC_DECOMPRESS_RESUME_SINGLE_BLK_N_SUSPEND : Nat := 0x16

/-- `GZIP_FC_WRAP`. -/
def GZIP_FC_WRAP : Nat := 0x1e

/-- `fc_is_compress(fc)`: `((fc) & 0x10) == 0`. -/
def fc_is_compress (fc : Nat) : Bool := (fc &&& 0x10) == 0

/-- `fc_has_count(fc)`: `fc_is_compress(fc) && (((fc) & 0x4) != 0)`. -/
def fc_has_count (fc : Nat) : Bool := fc_is_compress fc && ((fc &&& 0x4) != 0)

/-- The closed table of defined `GZIP_FC_*` function codes. -/
def gzip_fc_codes : List Nat :=
  [GZIP_FC_COMPRESS_FHT, GZIP_FC_COMPRESS_DHT, GZIP_FC_COMPRESS_FHT_COUNT,
   GZIP_FC_COMPRESS_DHT_COUNT, GZIP_FC_COMPRESS_RESUME_FHT,
   GZIP_FC_COMPRESS_RESUME_DHT, GZIP_FC_COMPRESS_RESUME_FHT_COUNT,
   GZIP_FC_COMPRESS_RESUME_DHT_COUNT, GZIP_FC_DECOMPRESS,
   GZIP_FC_DECOMPRESS_SINGLE_BLK_N_SUSPEND, GZIP_FC_DECOMPRESS_RESUME,
   GZIP_FC_DECOMPRESS_RESUME_SINGLE_BLK_N_SUSPEND, GZIP_FC_WRAP]

/-- C7.  Over the closed table of function codes, `fc_has_count` is true
exactly for the four compression count variants, and no code in the table
combines counting with decompression or with wrap. -/
theorem C7_fc_has_count_table :
    (gzip_fc_codes.all fun fc =>
      fc_has_count fc ==
        (fc == GZIP_FC_COMPRESS_FHT_COUNT || fc == GZIP_FC_COMPRESS_DHT_COUNT ||
         fc == GZIP_FC_COMPRESS_RESUME_FHT_COUNT ||
         fc == GZIP_FC_COMPRESS_RESUME_DHT_COUNT)) = true ∧
    (gzip_fc_codes.all fun fc =>
      !(fc_has_count fc && !fc_is_compress fc) &&
      !(fc_has_count fc && (fc == GZIP_FC_WRAP))) = true := by
  decide

/-!  Checksum seeds for non-resume operations. -/

/-- `INIT_CRC`: `crc32(0L, Z_NULL, 0)` per the header comment. -/
def INIT_CRC : Nat := 0

/-- `INIT_ADLER`: `adler32(0L, Z_NULL, 0)`; adler is initialized to 1. -/
def INIT_ADLER : Nat := 1

/-- Modelled from the spec: one bit step of zlib's standard CRC-32
(reflected polynomial `0xEDB88320`); the zlib implementation the header
comment `crc32(0L, Z_NULL, 0)` refers to is not part of this repository. -/
def crc32_bit (c : Nat) : Nat :=
  if c % 2 = 1 then (c / 2) ^^^ 0xEDB88320 else c / 2

/-- Modelled from the spec: one byte step of zlib's standard CRC-32. -/
def crc32_byte_step (c b : Nat) : Nat := crc32_bit^[8] (c ^^^ (b % 256))

/-- Modelled from the spec: zlib's `crc32` of a byte string — initial
value `0xFFFFFFFF`, bitwise update, final complement. -/
def crc32 (data : List Nat) : Nat :=
  (data.foldl crc32_byte_step 0xFFFFFFFF) ^^^ 0xFFFFFFFF

/-- Modelled from the spec: zlib's `adler32` of a byte string — sums
start at `a = 1`, `b = 0`, modulo 65521. -/
def adler32 (data : List Nat) : Nat :=
  let p := data.foldl
    (fun (p : Nat × Nat) x =>
      ((p.1 + x % 256) % 65521, (p.2 + (p.1 + x % 256) % 65521) % 65521))
    (1, 0)
  p.2 * 65536 + p.1

/-- C6.  The non-resume seeds are the standard empty-input checksum
values: `INIT_CRC = crc32 [] = 0` and `INIT_ADLER = adler32 [] = 1`,
and the two seeds differ. -/
theorem C6_init_checksum_seeds :
    INIT_CRC = crc32 [] ∧ INIT_CRC = 0 ∧
    INIT_ADLER = adler32 [] ∧ INIT_ADLER = 1 ∧
    INIT_CRC ≠ INIT_ADLER := by
  decide

/-!  Timebase helpers. -/

/-- `nx_get_freq` as a state transformer.  The process state is the
cached variable `tb_freq`; `hw` is what `__ppc_get_timebase_freq()` would
return.  The result is `(return value, new tb_freq, whether the hardware
was read)`. -/
def nx_get_freq (hw tb_freq : Nat) : Nat × Nat × Bool :=
  if tb_freq = 0 then (hw, hw, true) else (tb_freq, tb_freq, false)

/-- C8.  `nx_get_freq` reads the hardware only when the cache `tb_freq`
is zero; a nonzero cache is returned unchanged without a hardware read;
and once a call has stored a nonzero frequency, any subsequent call (with
any hardware value) returns that same value without re-reading. -/
theorem C8_nx_get_freq_lazy_cache (hw hw2 tb : Nat) :
    (tb ≠ 0 → nx_get_freq hw tb = (tb, tb, false)) ∧
    (tb = 0 → nx_get_freq hw tb = (hw, hw, true)) ∧
    ((nx_get_freq hw tb).2.1 ≠ 0 →
      nx_get_freq hw2 (nx_get_freq hw tb).2.1 =
        ((nx_get_freq hw tb).1, (nx_get_freq hw tb).2.1, false)) := by
  refine ⟨fun h => by simp [nx_get_freq, h], fun h => by simp [nx_get_freq, h], fun h => ?_⟩
  by_cases h0 : tb = 0
  · simp [nx_get_freq, h0] at h ⊢
    simp [h]
  · simp [nx_get_freq, h0]

/-- Witness for C8: a populated cache (3) is returned as is; an empty
cache is filled from the hardware (7) and the next call returns it. -/
theorem C8_nx_get_freq_lazy_cache_witness :
    nx_get_freq 5 3 = (3, 3, false) ∧
    nx_get_freq 7 0 = (7, 7, true) ∧
    nx_get_freq 9 (nx_get_freq 7 0).2.1 =
      ((nx_get_freq 7 0).1, (nx_get_freq 7 0).2.1, false) :=
  ⟨(C8_nx_get_freq_lazy_cache 5 9 3).1 (by decide),
   (C8_nx_get_freq_lazy_cache 7 9 0).2.1 rfl,
   (C8_nx_get_freq_lazy_cache 7 9 0).2.2 (by decide)⟩

/-- `nx_time_diff(t1, t2)` in `uint64_t` arithmetic.  Note the wrap branch
subtracts from `0xFFFFFFFFFFFFFFF` (15 F digits, `2^60 - 1`), not from the
64-bit all-ones value. -/
def nx_time_diff (t1 t2 : Nat) : Nat :=
  if t1 ≤ t2 then t2 - t1
  else ((0xFFFFFFFFFFFFFFF + 2 ^ 64 - t1) % 2 ^ 64 + t2) % 2 ^ 64

/-- C10.  For 64-bit timebase values: when `t2 ≥ t1` the difference is
exact; when `t2 < t1` the result is `(0xFFFFFFFFFFFFFFF - t1) + t2` in
64-bit modular arithmetic, which always differs from the true modular
difference `(t2 - t1) mod 2^64` because the compensation constant is
`2^60 - 1`, not `2^64`. -/
theorem C10_nx_time_diff_wrap (t1 t2 : Nat) (h1 : t1 < 2 ^ 64) (h2 : t2 < 2 ^ 64) :
    (t1 ≤ t2 → nx_time_diff t1 t2 = t2 - t1) ∧
    (t2 < t1 →
      nx_time_diff t1 t2 = (((0xFFFFFFFFFFFFFFF : Int) - t1 + t2) % (2 ^ 64 : Int)).toNat ∧
      nx_time_diff t1 t2 ≠ (((t2 : Int) - t1) % (2 ^ 64 : Int)).toNat) := by
  unfold nx_time_diff
  constructor
  · intro h
    simp [h]
  · intro h
    have hn : ¬ t1 ≤ t2 := Nat.not_le.mpr h
    have h64 : ((2 : Int) ^ 64) = 18446744073709551616 := by norm_num
    simp only [hn, if_false, h64]
    constructor <;> omega

/-- Witness for C10 at `t1 = 12`, `t2 = 5` (wrap) and `t1 = 5`, `t2 = 12`. -/
theorem C10_nx_time_diff_wrap_witness :
    nx_time_diff 5 12 = 12 - 5 ∧
    (nx_time_diff 12 5 = (((0xFFFFFFFFFFFFFFF : Int) - 12 + 5) % (2 ^ 64 : Int)).toNat ∧
      nx_time_diff 12 5 ≠ (((5 : Int) - 12) % (2 ^ 64 : Int)).toNat) :=
  ⟨(C10_nx_time_diff_wrap 5 12 (by decide) (by decide)).1 (by decide),
   (C10_nx_time_diff_wrap 12 5 (by decide) (by decide)).2 (by decide)⟩

/-!  `cudautils/cudaCheck.h`.

`printCudaErrorMessage` is `[[noreturn]]`: it always throws a
`std::runtime_error` carrying the formatted message.  Throwing is modelled
with `Except String Bool`: `.ok true` is a normal `return true`, `.error m`
is a thrown exception with message `m`.  The CUDA error-name and
error-description lookup functions (`cuGetErrorName`/`cuGetErrorString`
resp. `cudaGetErrorName`/`cudaGetErrorString`) are external to the
repository and appear as function parameters. -/

theorem str_append_assoc (a b c : String) : a ++ b ++ c = a ++ (b ++ c) := by
  rcases a with ⟨la⟩
  rcases b with ⟨lb⟩
  rcases c with ⟨lc⟩
  show String.mk (la ++ lb ++ lc) = String.mk (la ++ (lb ++ lc))
  rw [List.append_assoc]

/-- The `std::runtime_error` message assembled by `printCudaErrorMessage`:
the stream inserts `"\n"`, the file, `", line "`, the line, `":\n"`,
`"cudaCheck("`, the expression, `");\n"`, the error name, `": "`, the
description and `"\n"`, in that order. -/
def printCudaErrorMessage (file : String) (line : Nat) (cmd error message : String) :
    String :=
  "\n" ++ file ++ ", line " ++ toString line ++ ":\n" ++ "cudaCheck(" ++ cmd ++
    ");\n" ++ error ++ ": " ++ message ++ "\n"

/-- `CUDA_SUCCESS`, the zero success value of the CUDA driver API. -/
def CUDA_SUCCESS : Nat := 0

/-- `cudaSuccess`, the zero success value of the CUDA runtime API. -/
def cudaSuccess : Nat := 0

/-- `cudaCheck_` — the `CUresult` (driver API) overload. -/
def cudaCheck_cu (file : String) (line : Nat) (cmd : String) (result : Nat)
    (getName getDesc : Nat → String) : Except String Bool :=
  if result = CUDA_SUCCESS then .ok true
  else .error (printCudaErrorMessage file line cmd (getName result) (getDesc result))

/-- `cudaCheck_` — the `cudaError_t` (runtime API) overload. -/
def cudaCheck_rt (file : String) (line : Nat) (cmd : String) (result : Nat)
    (getName getDesc : Nat → String) : Except String Bool :=
  if result = cudaSuccess then .ok true
  else .error (printCudaErrorMessage file line cmd (getName result) (getDesc result))

/-- `m` contains `s` as a substring. -/
def containsStr (m s : String) : Prop := ∃ a b, m = a ++ s ++ b

theorem printCudaErrorMessage_contains (file : String) (line : Nat)
    (cmd error message : String) :
    containsStr (printCudaErrorMessage file line cmd error message) file ∧
    containsStr (printCudaErrorMessage file line cmd error message) (toString line) ∧
    containsStr (printCudaErrorMessage file line cmd error message) cmd ∧
    containsStr (printCudaErrorMessage file line cmd error message) error ∧
    containsStr (printCudaErrorMessage file line cmd error message) message := by
  refine ⟨⟨"\n", ", line " ++ toString line ++ ":\n" ++ "cudaCheck(" ++ cmd ++
      ");\n" ++ error ++ ": " ++ message ++ "\n", ?_⟩,
    ⟨"\n" ++ file ++ ", line ", ":\n" ++ "cudaCheck(" ++ cmd ++ ");\n" ++ error ++
      ": " ++ message ++ "\n", ?_⟩,
    ⟨"\n" ++ file ++ ", line " ++ toString line ++ ":\n" ++ "cudaCheck(",
      ");\n" ++ error ++ ": " ++ message ++ "\n", ?_⟩,
    ⟨"\n" ++ file ++ ", line " ++ toString line ++ ":\n" ++ "cudaCheck(" ++ cmd ++
      ");\n", ": " ++ message ++ "\n", ?_⟩,
    ⟨"\n" ++ file ++ ", line " ++ toString line ++ ":\n" ++ "cudaCheck(" ++ cmd ++
      ");\n" ++ error ++ ": ", "\n", ?_⟩⟩ <;>
  simp [printCudaErrorMessage, str_append_assoc]

/-- C9.  Both `cudaCheck_` overloads return true exactly on the success
value (`CUDA_SUCCESS` resp. `cudaSuccess`); on every other result they
throw a `std::runtime_error` whose message contains the file name, line
number, checked expression, error name and error description; and neither
overload ever returns false (`printCudaErrorMessage` is noreturn, so the
trailing `return false` is unreachable). -/
theorem C9_cudaCheck_success_or_throw (file : String) (line : Nat) (cmd : String)
    (result : Nat) (getName getDesc : Nat → String) :
    (result = CUDA_SUCCESS →
      cudaCheck_cu file line cmd result getName getDesc = .ok true) ∧
    (result = cudaSuccess →
      cudaCheck_rt file line cmd result getName getDesc = .ok true) ∧
    (result ≠ CUDA_SUCCESS →
      cudaCheck_cu file line cmd result getName getDesc =
        .error (printCudaErrorMessage file line cmd (getName result) (getDesc result)) ∧
      containsStr (printCudaErrorMessage file line cmd (getName result) (getDesc result))
        file ∧
      containsStr (printCudaErrorMessage file line cmd (getName result) (getDesc result))
        (toString line) ∧
      containsStr (printCudaErrorMessage file line cmd (getName result) (getDesc result))
        cmd ∧
      containsStr (printCudaErrorMessage file line cmd (getName result) (getDesc result))
        (getName result) ∧
      containsStr (printCudaErrorMessage file line cmd (getName result) (getDesc result))
        (getDesc result)) ∧
    (result ≠ cudaSuccess →
      cudaCheck_rt file line cmd result getName getDesc =
        .error (printCudaErrorMessage file line cmd (getName result) (getDesc result))) ∧
    cudaCheck_cu file line cmd result getName getDesc ≠ .ok false ∧
    cudaCheck_rt file line cmd result getName getDesc ≠ .ok false := by
  obtain ⟨c1, c2, c3, c4, c5⟩ :=
    printCudaErrorMessage_contains file line cmd (getName result) (getDesc result)
  by_cases h : result = 0
  · refine ⟨fun _ => ?_, fun _ => ?_, fun hn => absurd h hn, fun hn => absurd h hn, ?_, ?_⟩ <;>
      simp [cudaCheck_cu, cudaCheck_rt, CUDA_SUCCESS, cudaSuccess, h]
  · refine ⟨fun he => absurd he h, fun he => absurd he h,
      fun _ => ⟨?_, c1, c2, c3, c4, c5⟩, fun _ => ?_, ?_, ?_⟩ <;>
      simp [cudaCheck_cu, cudaCheck_rt, CUDA_SUCCESS, cudaSuccess, h]

/-- Witness for C9: success at result 0, throw with full message at
result 1. -/
theorem C9_cudaCheck_success_or_throw_witness :
    cudaCheck_cu ("kernel.cu") 42 ("cudaMalloc(p)") 0
      (fun _ => "ERR") (fun _ => "DESC") = .ok true ∧
    (cudaCheck_cu ("kernel.cu") 42 ("cudaMalloc(p)") 1
        (fun _ => "ERR") (fun _ => "DESC") =
      .error (printCudaErrorMessage ("kernel.cu") 42 ("cudaMalloc(p)")
        ("ERR") ("DESC")) ∧
      containsStr (printCudaErrorMessage ("kernel.cu") 42 ("cudaMalloc(p)")
        ("ERR") ("DESC")) ("kernel.cu") ∧
      containsStr (printCudaErrorMessage ("kernel.cu") 42 ("cudaMalloc(p)")
        ("ERR") ("DESC")) (toString 42) ∧
      containsStr (printCudaErrorMessage ("kernel.cu") 42 ("cudaMalloc(p)")
        ("ERR") ("DESC")) ("cudaMalloc(p)") ∧
      containsStr (printCudaErrorMessage ("kernel.cu") 42 ("cudaMalloc(p)")
        ("ERR") ("DESC")) ("ERR") ∧
      containsStr (printCudaErrorMessage ("kernel.cu") 42 ("cudaMalloc(p)")
        ("ERR") ("DESC")) ("DESC")) ∧
    cudaCheck_rt ("kernel.cu") 42 ("cudaMalloc(p)") 7
      (fun _ => "ERR") (fun _ => "DESC") ≠ .ok false :=
  ⟨(C9_cudaCheck_success_or_throw ("kernel.cu") 42 ("cudaMalloc(p)") 0
      (fun _ => "ERR") (fun _ => "DESC")).1 rfl,
   (C9_cudaCheck_success_or_throw ("kernel.cu") 42 ("cudaMalloc(p)") 1
      (fun _ => "ERR") (fun _ => "DESC")).2.2.1 (by decide),
   (C9_cudaCheck_success_or_throw ("kernel.cu") 42 ("cudaMalloc(p)") 7
      (fun _ => "ERR") (fun _ => "DESC")).2.2.2.2.2⟩
